import Mathlib

/-!
Shallow embedding of `src/src/tools/mxt_debug_dump/mxt_debug_dump.c`
(the debug dump tool for maXTouch chips): the diagnostic page fetcher
`mxt_debug_dump_page`, the frame assembler `mxt_debug_insert_data`, the
serializers `mxt_hawkeye_output` / `mxt_hawkeye_generate_control_file`,
the per-family geometry dispatch, and the capture loop `mxt_debug_dump`.

External collaborators (`mxt_read_register` / `mxt_write_register`, object
address resolution, the wall clock, file handles) are modelled as inputs:
a `Transport` value per page fetch supplies the outcomes of the register
transfers that fetch performs, and timestamps/frame counts are parameters.
C `int` values are embedded as `Int`, `uint8`/`uint16` contents as `Nat`
reduced mod 256 / mod 65536 at the points where the C types truncate.
-/

namespace Mxt

/-- T6 debug diagnostics command `PAGE_UP` (0x01). -/
def PAGE_UP : Nat := 0x01

/-- T6 debug diagnostics command `DELTAS_MODE` (0x10). -/
def DELTAS_MODE : Nat := 0x10

/-- T6 debug diagnostics command `REFS_MODE` (0x11). -/
def REFS_MODE : Nat := 0x11

/-- Error classes a page fetch can produce, per the spec taxonomy:
`transport` = a register read returned a negative status (TransportError),
`timeout` = the poll loop exhausted its retries (CommandTimeout),
`mismatch` = echoed mode/page disagree with the request (ProtocolMismatch).
The C code collapses all of them to `-1`; the constructors record which
`return -1` site fired. -/
inductive FetchError where
  | transport
  | timeout
  | mismatch
deriving DecidableEq

/-- Outcomes of the register transfers performed by one call of
`mxt_debug_dump_page`, supplied by the external register-access
collaborator. `Except.error ()` models a negative return status.
`writeStatus` is the status of the initial `mxt_write_register` of the
mode / page-advance command; the source discards that status, so the
embedding records it but (faithfully) never consults it. -/
structure Transport where
  writeStatus : Int
  readCmd : Nat → Except Unit Nat
  readMode : Except Unit Nat
  readPage : Except Unit Nat
  readPayload : Except Unit (List Nat)

/-- The `while (read_command)` poll loop of `mxt_debug_dump_page`
(lines 132-153). `readCmd n` is the byte (or failure) returned by the
n-th read of the diagnostic command register; `failures` is the C
`failures` counter. Returns the loop outcome and the total number of
reads performed. The loop body increments `failures` on every non-zero
read and bails out when `failures > 500`, so from the entry state
`pollLoop readCmd 500 0 0` the invariant `failures + fuel = 500` holds
at every iteration and the recursion is structural on `fuel`. In the
`fuel = 0` case (only reachable with `failures = 500`) the guard
`failures + 1 > 500` is always true, so that case returns the timeout
directly, exactly as the C loop does there. -/
def pollLoop (readCmd : Nat → Except Unit Nat) :
    Nat → Nat → Nat → Except FetchError Unit × Nat
  | 0, n, _failures =>
    match readCmd n with
    | .error _ => (.error .transport, n + 1)
    | .ok b =>
      if b % 256 = 0 then
        (.ok (), n + 1)
      else
        (.error .timeout, n + 1)
  | fuel + 1, n, failures =>
    match readCmd n with
    | .error _ => (.error .transport, n + 1)
    | .ok b =>
      if b % 256 = 0 then
        (.ok (), n + 1)
      else if failures + 1 > 500 then
        (.error .timeout, n + 1)
      else
        pollLoop readCmd fuel (n + 1) (failures + 1)

/-- Result of one `mxt_debug_dump_page` call: the fetched page buffer or
the error, the number of command-register polls performed, whether the
page-payload read (`t37_addr + 2`, `page_size` bytes) was performed, and
the command byte written to the diagnostic command register. -/
structure FetchResult where
  result : Except FetchError (List Nat)
  polls : Nat
  payloadRead : Bool
  cmdWritten : Nat

/-- Embedding of `mxt_debug_dump_page` (lines 111-184). `mode` is the
session capture mode (`mxt_dd->mode`, a uint8), `page` the requested page
index (`mxt_dd->page`, an int, always nonnegative). Steps, as in the
source: write the mode command when `page == 0` and `PAGE_UP` otherwise
(write status discarded, as in the source); poll the command register;
read back the echoed mode and page bytes and compare them with the
request; only then read the page payload. -/
def mxt_debug_dump_page (t : Transport) (mode page : Nat) : FetchResult :=
  let cmd := if page = 0 then mode % 256 else PAGE_UP
  match pollLoop t.readCmd 500 0 0 with
  | (.error e, n) => ⟨.error e, n, false, cmd⟩
  | (.ok _, n) =>
    match t.readMode with
    | .error _ => ⟨.error .transport, n, false, cmd⟩
    | .ok rm =>
      match t.readPage with
      | .error _ => ⟨.error .transport, n, false, cmd⟩
      | .ok rp =>
        if rm % 256 = mode % 256 ∧ rp % 256 = page then
          match t.readPayload with
          | .error _ => ⟨.error .transport, n, true, cmd⟩
          | .ok buf => ⟨.ok buf, n, true, cmd⟩
        else
          ⟨.error .mismatch, n, false, cmd⟩

/-- The assembler's write cursor: `mxt_dd->x_ptr` / `mxt_dd->y_ptr`. -/
structure Cursor where
  x : Int
  y : Int
deriving DecidableEq

/-- Result of one `mxt_debug_insert_data` call: the `(offset, value)`
matrix stores performed (in order), the final cursor, and whether the
function returned 0 (`ok = true`) or `-1` (x pointer overrun). -/
structure InsertOut where
  writes : List (Int × Nat)
  cursor : Cursor
  ok : Bool
deriving DecidableEq

/-- The `for (i = 0; i < page_size; i += 2)` body of
`mxt_debug_insert_data` (lines 192-213); `fuel` is the number of
remaining iterations and `i` the C loop index. Each iteration first
checks `x_ptr > x_size` (returning the error before any store), then
decodes `(page_buf[i+1] << 8) | page_buf[i]` (bytes are uint8, hence
`% 256`), stores it at `y_ptr + x_ptr * y_size`, increments `y_ptr`, and
wraps to `(stripe_starty, x_ptr + 1)` when `y_ptr` exceeds
`stripe_endy`. -/
def insertLoop (x_size y_size stripe_starty stripe_endy : Int)
    (buf : List Nat) : Nat → Nat → Cursor → InsertOut
  | 0, _, c => ⟨[], c, true⟩
  | fuel + 1, i, c =>
    if c.x > x_size then
      ⟨[], c, false⟩
    else
      let value := buf.getD (i + 1) 0 % 256 * 256 + buf.getD i 0 % 256
      let ofs := c.y + c.x * y_size
      let c2 : Cursor :=
        if c.y + 1 > stripe_endy then ⟨c.x + 1, stripe_starty⟩
        else ⟨c.x, c.y + 1⟩
      let rest := insertLoop x_size y_size stripe_starty stripe_endy buf fuel (i + 2) c2
      ⟨(ofs, value) :: rest.writes, rest.cursor, rest.ok⟩

/-- Embedding of `mxt_debug_insert_data` (lines 186-216). The loop
`for (i = 0; i < page_size; i += 2)` performs `⌈page_size / 2⌉`
iterations. -/
def mxt_debug_insert_data (x_size y_size stripe_starty stripe_endy : Int)
    (page_size : Nat) (buf : List Nat) (c : Cursor) : InsertOut :=
  insertLoop x_size y_size stripe_starty stripe_endy buf ((page_size + 1) / 2) 0 c

/-- Replay of a list of `(offset, value)` stores on the `data_buf`
contents (modelled as a map from offset to the stored uint16). -/
def applyWrites (d : Int → Nat) (ws : List (Int × Nat)) : Int → Nat :=
  ws.foldl (fun d w => fun o => if o = w.1 then w.2 else d o) d

/-- The C cast `(int16_t)` of a uint16 `data_buf` cell, as performed by
`mxt_hawkeye_output` (line 307) before printing with `%d`. -/
def int16OfUint16 (v : Nat) : Int :=
  if v % 65536 < 32768 then (v % 65536 : Nat) else (v % 65536 : Nat) - 65536

/-- Little-endian byte encoding of a signed 16-bit value, the inverse of
the assembler's `(page_buf[i+1] << 8) | page_buf[i]` decoding. -/
def encodeInt16LE (v : Int) : List Nat :=
  [(v % 65536).toNat % 256, (v % 65536).toNat / 256]

/-- Embedding of `mxt_hawkeye_output` (lines 272-315): append one CSV
record `timestr,frame,v,v,...,v,\n` to the capture log. The timestamp
comes from `strftime("%T")` on the wall clock, an external collaborator;
it is a parameter here. The cells are emitted by the source's nested
loops, `x` outer over `0..x_size-1`, `y` inner over `0..y_size-1`, each
printed as `%d,` after an `(int16_t)` cast of `data_buf[y + x*y_size]`. -/
def mxt_hawkeye_output (timestr : String) (frame : Nat) (x_size y_size : Nat)
    (data : Int → Nat) : String :=
  timestr ++ "," ++ toString frame ++ "," ++
    String.join ((List.range x_size).map fun (x : Nat) =>
      String.join ((List.range y_size).map fun (y : Nat) =>
        toString (int16OfUint16 (data ((y : Int) + (x : Int) * (y_size : Int)))) ++ ",")) ++
    "\n"

/-- Embedding of `mxt_hawkeye_generate_control_file` (lines 247-270):
the column-layout descriptor, a `uint8,1,1,TIN` header followed by one
`int16_lsb_msb,<y+1>,<x+1>,X<x>Y<y>_Delta16` line per cell in the same
column-major order as the log records. -/
def mxt_hawkeye_generate_control_file (x_size y_size : Nat) : String :=
  "uint8,1,1,TIN\n" ++
    String.join ((List.range x_size).map fun x =>
      String.join ((List.range y_size).map fun y =>
        "int16_lsb_msb," ++ toString (y + 1) ++ "," ++ toString (x + 1) ++
          ",X" ++ toString x ++ "Y" ++ toString y ++ "_Delta16\n"))

/-- Embedding of the `switch (info_block.id->family_id)` of
`mxt_debug_dump` (lines 357-404), which picks `num_stripes`,
`pages_per_stripe` and `mxt_dd.x_size`. The C switch is reproduced with
its fallthroughs: case 0x80 (mXT224) has no `break`, so its assignments
`(1, 4, x_size)` are immediately overwritten by case 0xA0's
`(3, 8, 27)`; case 0xA2 with variant 0x00 keeps its assignments but also
falls into `default` (which only logs); the `default` case and the 0xA2
unrecognized-variant branch only log and assign nothing. The result is
`some` of the values the switch leaves assigned, or `none` when the
three variables are left uninitialized — the C function does not return
early in either case. -/
def resolveGeometry (family variant x_size : Nat) :
    Option (Nat × Nat × Nat) :=
  if family = 0x80 then some (3, 8, 27)
  else if family = 0xA0 then some (3, 8, 27)
  else if family = 0xA1 then
    if variant = 0x03 then some (1, 9, x_size) else some (1, 12, x_size)
  else if family = 0xA2 then
    if variant = 0x00 then some (1, 30, x_size) else none
  else none

/-- Session configuration of the capture loop, fixed after the geometry
switch of `mxt_debug_dump`: the per-page transports (indexed by the
global fetch-call counter), the per-frame timestamps, and the fields of
`struct mxt_debug_data` that the loop reads. -/
structure Cfg where
  env : Nat → Transport
  times : Nat → String
  mode : Nat
  page_size : Nat
  x_size : Nat
  y_size : Nat
  num_stripes : Nat
  pages_per_stripe : Nat
  stripe_width : Int

/-- Mutable state of the capture loop: the assembler cursor and stripe
bounds, the `data_buf` contents, the count of page fetches performed so
far, and the observable traces (command bytes written to the diagnostic
command register, per-page assembler outcomes, serialized log records). -/
structure RunState where
  x_ptr : Int
  y_ptr : Int
  stripe_starty : Int
  stripe_endy : Int
  data : Int → Nat
  calls : Nat
  cmds : List Nat
  insertOks : List Bool
  records : List String

/-- One iteration of the innermost page loop of `mxt_debug_dump`
(lines 450-464): fetch the page, abort (`goto free`) when the fetch
fails, otherwise run the assembler. The source ignores
`mxt_debug_insert_data`'s return value (line 463), so an assembler error
does not stop the loop; the embedding records the outcome in
`insertOks` and continues, exactly as the source does. -/
def runPage (cfg : Cfg) (pageIdx : Nat) (st : RunState) :
    Except RunState RunState :=
  let fr := mxt_debug_dump_page (cfg.env st.calls) cfg.mode pageIdx
  match fr.result with
  | .error _ =>
    .error { st with calls := st.calls + 1, cmds := st.cmds ++ [fr.cmdWritten] }
  | .ok buf =>
    let io := mxt_debug_insert_data (cfg.x_size : Int) (cfg.y_size : Int)
      st.stripe_starty st.stripe_endy cfg.page_size buf ⟨st.x_ptr, st.y_ptr⟩
    .ok { st with
      calls := st.calls + 1,
      cmds := st.cmds ++ [fr.cmdWritten],
      x_ptr := io.cursor.x, y_ptr := io.cursor.y,
      data := applyWrites st.data io.writes,
      insertOks := st.insertOks ++ [io.ok] }

/-- The page loop over a list of requested page indices. -/
def runPages (cfg : Cfg) : List Nat → RunState → Except RunState RunState
  | [], st => .ok st
  | p :: ps, st =>
    match runPage cfg p st with
    | .error st => .error st
    | .ok st => runPages cfg ps st

/-- One stripe of `mxt_debug_dump` (lines 442-464): set the stripe
bounds `stripe_starty = stripe_width * stripe`,
`stripe_endy = stripe_starty + stripe_width - 1`, reset the cursor to
`(0, stripe_starty)`, then fetch/assemble pages
`pages_per_stripe * stripe + p` for `p = 0 .. pages_per_stripe - 1`. -/
def runStripe (cfg : Cfg) (stripe : Nat) (st : RunState) :
    Except RunState RunState :=
  let starty : Int := cfg.stripe_width * (stripe : Int)
  runPages cfg
    ((List.range cfg.pages_per_stripe).map fun p =>
      cfg.pages_per_stripe * stripe + p)
    { st with stripe_starty := starty,
              stripe_endy := starty + cfg.stripe_width - 1,
              x_ptr := 0, y_ptr := starty }

/-- The stripe loop over a list of stripe indices. -/
def runStripes (cfg : Cfg) : List Nat → RunState → Except RunState RunState
  | [], st => .ok st
  | s :: ss, st =>
    match runStripe cfg s st with
    | .error st => .error st
    | .ok st => runStripes cfg ss st

/-- One frame of `mxt_debug_dump`: all stripes, then one
`mxt_hawkeye_output` record appended to the log (line 467; its return
value is ignored by the source). -/
def runFrame (cfg : Cfg) (frame : Nat) (st : RunState) :
    Except RunState RunState :=
  match runStripes cfg (List.range cfg.num_stripes) st with
  | .error st => .error st
  | .ok st =>
    .ok { st with records := st.records ++
      [mxt_hawkeye_output (cfg.times frame) frame cfg.x_size cfg.y_size st.data] }

/-- The frame loop over a list of frame numbers. -/
def runFrames (cfg : Cfg) : List Nat → RunState → Except RunState RunState
  | [], st => .ok st
  | f :: fs, st =>
    match runFrame cfg f st with
    | .error st => .error st
    | .ok st => runFrames cfg fs st

/-- Observable outcome of one `mxt_debug_dump` run: the traces, the
column-layout descriptor contents (`none` when the run aborted — the
`goto free` error path skips both `fclose(mxt_dd.hawkeye)` and
`mxt_hawkeye_generate_control_file`), and the C return value. -/
structure DumpOut where
  cmds : List Nat
  insertOks : List Bool
  records : List String
  control : Option String
  ret : Int

/-- Embedding of `mxt_debug_dump` (lines 328-485) on its main path:
object addresses resolve, buffer allocation and `fopen` succeed (those
collaborators are out of scope per the spec; their failure paths return
`-1` before any capture work). `frames` is the count read by
`get_num_frames` (a `scanf("%u")`, so 0 is a possible value);
`x_reported`/`y_reported` are the info block's matrix sizes; `junk`
stands for the uninitialized stack values of
`num_stripes`/`pages_per_stripe`/`mxt_dd.x_size` that the run keeps
using when the geometry switch assigns nothing; `t37_size` is the T37
object size, giving `page_size = (uint8)(t37_size - 2)`;
`init_data` is the (uninitialized) initial `data_buf` contents. The
frame loop runs `mxt_dd.frame = 1 .. frames`; `stripe_width` is the C
integer division `y_size / num_stripes`. -/
def mxt_debug_dump (frames family variant x_reported y_reported : Nat)
    (junk : Nat × Nat × Nat) (t37_size : Nat)
    (env : Nat → Transport) (times : Nat → String) (mode : Nat)
    (init_data : Int → Nat) : DumpOut :=
  let geo := (resolveGeometry family variant x_reported).getD junk
  let cfg : Cfg :=
    { env := env, times := times, mode := mode,
      page_size := (((t37_size : Int) - 2).emod 256).toNat,
      x_size := geo.2.2, y_size := y_reported,
      num_stripes := geo.1, pages_per_stripe := geo.2.1,
      stripe_width := (y_reported : Int) / (geo.1 : Int) }
  let st0 : RunState := ⟨0, 0, 0, 0, init_data, 0, [], [], []⟩
  match runFrames cfg ((List.range frames).map (· + 1)) st0 with
  | .error st => ⟨st.cmds, st.insertOks, st.records, none, -1⟩
  | .ok st => ⟨st.cmds, st.insertOks, st.records,
      some (mxt_hawkeye_generate_control_file cfg.x_size cfg.y_size), 0⟩

/-- A transport for global fetch call `n` modelling a chip that follows
the diagnostic protocol: the initial command write succeeds, the command
register reads back cleared on the first poll, the echoed mode is the
requested mode, the echoed page is call ordinal `n` modulo the number
`per` of pages per frame (the chip's page counter advances once per
`PAGE_UP`), and the payload read yields `payload`. -/
def echoTransport (per n mode : Nat) (payload : List Nat) : Transport :=
  ⟨0, fun _ => .ok 0, .ok (mode % 256), .ok (n % per), .ok payload⟩

/-- A session-long environment of `echoTransport`s. -/
def echoEnv (per mode : Nat) (payloads : Nat → List Nat) : Nat → Transport :=
  fun n => echoTransport per n mode (payloads n)

/-- All `(x, y)` cells of the matrix in column-major order (`x` outer,
`y` inner), as spec section 4.5 enumerates the log record's values. -/
def columnMajorCells (x_size y_size : Nat) : List (Nat × Nat) :=
  (List.range x_size).flatMap fun x => (List.range y_size).map fun y => (x, y)

/-- The log record as spec section 4.5 words it:
`HH:MM:SS,<frame>,<v>,...,<v>,\n` with the timestamp, then the frame
index, then every one of the `x_size * y_size` matrix cells in
column-major order as decimal signed integers, each value (including the
last) terminated by a comma, then a newline. Compared against the
source-derived `mxt_hawkeye_output` for the refinement claim. -/
def specLogRecord (timestr : String) (frame : Nat) (x_size y_size : Nat)
    (data : Int → Nat) : String :=
  timestr ++ "," ++ toString frame ++ "," ++
    String.join ((columnMajorCells x_size y_size).map fun p =>
      toString (int16OfUint16 (data ((p.2 : Int) + (p.1 : Int) * (y_size : Int)))) ++ ",") ++
    "\n"

/-- A transport whose command register never reads back as cleared. -/
def tNever : Transport :=
  ⟨0, fun _ => .ok 1, .ok 0x10, .ok 0, .ok []⟩

/-- A transport whose initial command write fails (negative status) but
whose reads all succeed with a well-behaved echo for mode 0x10, page 0. -/
def tBadWrite : Transport :=
  ⟨-1, fun _ => .ok 0, .ok 0x10, .ok 0, .ok [7, 0]⟩

/-- A well-behaved transport that echoes page 1 when page 0 is
requested. -/
def tMismatch : Transport :=
  ⟨0, fun _ => .ok 0, .ok 0x10, .ok 1, .ok [5, 5]⟩

/-! Claim theorems. -/

/-- C1: evaluation of the Frame Assembler at the failing input. With
geometry `x_size = 1`, `y_size = 1`, stripe `[0, 0]`, cursor `(0, 0)`
and a 4-byte page, the guard `x_ptr > x_size` passes for `x_ptr = 1`
(only `x_ptr = 2` would trip it), so the second sample is stored at
matrix offset `1 = x_size * y_size` — at/past `effectiveX * nodeCountY`,
outside the `x_size * y_size`-cell `data_buf` — and the call still
returns success, contradicting the claim that no write ever lands at an
offset at or past `effectiveX * nodeCountY`. -/
theorem C1_overrun_write_eval :
    mxt_debug_insert_data 1 1 0 0 4 [1, 0, 2, 0] ⟨0, 0⟩ =
      ⟨[(0, 1), (1, 2)], ⟨2, 0⟩, true⟩ ∧
    ((mxt_debug_insert_data 1 1 0 0 4 [1, 0, 2, 0] ⟨0, 0⟩).writes.filter
      fun w => decide ((1 : Int) * 1 ≤ w.1)) = [(1, 2)] :=
  ⟨rfl, rfl⟩

/-- C2: evaluation of the capture loop at the failing input. Family
0xA1 variant 0x03 (1 stripe, 9 pages per stripe), reported grid 1×1,
`t37_size = 4` (one sample per page): the assembler reports the x
pointer overrun on the third page (`insertOks` index 2), but because
`mxt_debug_dump` discards `mxt_debug_insert_data`'s return value, all
9 pages are still fetched, the frame is serialized, and the run returns
0 — the capture does not stop, contradicting the claim. -/
theorem C2_assembler_error_ignored_eval :
    (mxt_debug_dump 1 0xA1 0x03 1 1 (0, 0, 0) 4 (echoEnv 9 0x10 fun _ => [0, 0])
        (fun _ => "00:00:00") 0x10 fun _ => 0).insertOks =
      [true, true, false, false, false, false, false, false, false] ∧
    (mxt_debug_dump 1 0xA1 0x03 1 1 (0, 0, 0) 4 (echoEnv 9 0x10 fun _ => [0, 0])
        (fun _ => "00:00:00") 0x10 fun _ => 0).cmds.length = 9 ∧
    (mxt_debug_dump 1 0xA1 0x03 1 1 (0, 0, 0) 4 (echoEnv 9 0x10 fun _ => [0, 0])
        (fun _ => "00:00:00") 0x10 fun _ => 0).ret = 0 :=
  ⟨rfl, rfl, rfl⟩

/-- C3: the geometry switch leaves unrecognized families and the
unrecognized 0xA2 variants without any entry (it only logs), and the
capture still proceeds: with family 0x42 the run performs a page fetch
and returns 0, using whatever junk values the uninitialized
`num_stripes`/`pages_per_stripe`/`x_size` stack variables hold (here
`(1, 1, 1)`) — there is no hard error and capture is attempted,
contradicting the claim. -/
theorem C3_unrecognized_family_not_fatal :
    resolveGeometry 0x42 0 5 = none ∧
    resolveGeometry 0xA2 1 5 = none ∧
    (mxt_debug_dump 1 0x42 0 5 1 (1, 1, 1) 4 (echoEnv 1 0x10 fun _ => [0, 0])
        (fun _ => "00:00:00") 0x10 fun _ => 0).cmds.length = 1 ∧
    (mxt_debug_dump 1 0x42 0 5 1 (1, 1, 1) 4 (echoEnv 1 0x10 fun _ => [0, 0])
        (fun _ => "00:00:00") 0x10 fun _ => 0).ret = 0 :=
  ⟨rfl, rfl, rfl, rfl⟩

/-- C5 counterexample: a 2-frame session with family 0xA1 variant 0x03
(9 pages per frame). The command trace shows the capture-mode byte
0x10 = 16 written twice — at global page 0 and again at global page 9,
the first page of frame 2 — because `mxt_dd.page` is recomputed from
`(stripe, page)` afresh in every frame; the claim says every page other
than the session-global page 0 receives the page-advance command 0x01
instead. -/
theorem C5_counterexample :
    (mxt_debug_dump 2 0xA1 0x03 1 1 (0, 0, 0) 4 (echoEnv 9 0x10 fun _ => [0, 0])
        (fun _ => "00:00:00") 0x10 fun _ => 0).cmds =
      [16, 1, 1, 1, 1, 1, 1, 1, 1, 16, 1, 1, 1, 1, 1, 1, 1, 1] ∧
    (16 : Nat) ≠ PAGE_UP :=
  ⟨rfl, by decide⟩

/-- C6: the Diagnostic Page Fetcher discards the status of the initial
mode / page-advance `mxt_write_register` call — its outcome is
independent of `writeStatus` — and a fetch whose command write failed
(status -1) still completes successfully instead of propagating a
TransportError, contradicting the claim. -/
theorem C6_write_failure_ignored :
    (∀ (t : Transport) (s : Int) (mode page : Nat),
      mxt_debug_dump_page { t with writeStatus := s } mode page =
        mxt_debug_dump_page t mode page) ∧
    (mxt_debug_dump_page tBadWrite 0x10 0).result = .ok [7, 0] :=
  ⟨fun _ _ _ _ => rfl, rfl⟩

/-- C10: a run with a requested frame count of 0 writes no command to
the chip (so fetches no page), appends no log record (the log file is
created and left empty), still writes the complete column-layout
descriptor, and returns 0 (success) — for every chip identity,
transport environment and initial buffer contents. -/
theorem C10_zero_frames (family variant x_reported y_reported : Nat)
    (junk : Nat × Nat × Nat) (t37_size : Nat) (env : Nat → Transport)
    (times : Nat → String) (mode : Nat) (d0 : Int → Nat) :
    mxt_debug_dump 0 family variant x_reported y_reported junk t37_size
        env times mode d0 =
      ⟨[], [], [], some (mxt_hawkeye_generate_control_file
        ((resolveGeometry family variant x_reported).getD junk).2.2 y_reported), 0⟩ :=
  rfl

/-- With a command register that never reads back as cleared, the poll
loop consumes every remaining retry and times out: from a state with
`failures + fuel = 500` it performs exactly `fuel + 1` further reads. -/
lemma pollLoop_timeout (readCmd : Nat → Except Unit Nat)
    (h : ∀ k, ∃ b, readCmd k = .ok b ∧ b % 256 ≠ 0) :
    ∀ fuel n failures, failures + fuel = 500 →
      pollLoop readCmd fuel n failures = (.error .timeout, n + fuel + 1) := by
  intro fuel
  induction fuel with
  | zero =>
    intro n failures hf
    obtain ⟨b, hb, hbn⟩ := h n
    simp only [pollLoop, hb, if_neg hbn]
  | succ fuel ih =>
    intro n failures hf
    obtain ⟨b, hb, hbn⟩ := h n
    simp only [pollLoop, hb]
    simp only [if_neg hbn, if_neg (show ¬failures + 1 > 500 by omega)]
    rw [ih (n + 1) (failures + 1) (by omega)]
    congr 1
    omega

/-- C4 (amended): if the command register never reads back as cleared,
`mxt_debug_dump_page` fails with the timeout error after exactly 501
consecutive non-cleared polls (the C guard is `failures > 500`, so the
501st non-cleared read is the one that trips it), not after 500. -/
theorem C4_timeout_after_501 (t : Transport) (mode page : Nat)
    (h : ∀ k, ∃ b, t.readCmd k = .ok b ∧ b % 256 ≠ 0) :
    (mxt_debug_dump_page t mode page).result = .error .timeout ∧
    (mxt_debug_dump_page t mode page).polls = 501 := by
  have hp := pollLoop_timeout t.readCmd h 500 0 0 (by omega)
  unfold mxt_debug_dump_page
  rw [hp]
  exact ⟨rfl, rfl⟩

/-- C4 witness: the amended timeout bound at a concrete never-clearing
transport. -/
theorem C4_timeout_after_501_witness :
    (mxt_debug_dump_page tNever 0x10 0).result = .error .timeout ∧
    (mxt_debug_dump_page tNever 0x10 0).polls = 501 :=
  C4_timeout_after_501 tNever 0x10 0 (fun _ => ⟨1, rfl, by decide⟩)

/-- C4 counterexample: at the same never-clearing transport the fetcher
does fail with the timeout error, but after a number of polls different
from the 500 the claim states. -/
theorem C4_counterexample :
    (mxt_debug_dump_page tNever 0x10 0).result = .error .timeout ∧
    (mxt_debug_dump_page tNever 0x10 0).polls ≠ 500 := by
  have hp := pollLoop_timeout tNever.readCmd (fun _ => ⟨1, rfl, by decide⟩) 500 0 0 (by omega)
  unfold mxt_debug_dump_page
  rw [hp]
  exact ⟨rfl, by decide⟩

/-- C7: whenever the echoed mode byte or the echoed page byte disagrees
with the request (in any way), the fetch fails with the mismatch error
and the page-payload read is never performed — for every transport whose
poll loop and echo reads succeed. -/
theorem C7_mismatch_aborts_without_payload (t : Transport)
    (mode page rm rp n : Nat)
    (hpoll : pollLoop t.readCmd 500 0 0 = (.ok (), n))
    (hm : t.readMode = .ok rm) (hp : t.readPage = .ok rp)
    (hmm : rm % 256 ≠ mode % 256 ∨ rp % 256 ≠ page) :
    (mxt_debug_dump_page t mode page).result = .error .mismatch ∧
    (mxt_debug_dump_page t mode page).payloadRead = false := by
  have hcond : ¬(rm % 256 = mode % 256 ∧ rp % 256 = page) := by tauto
  unfold mxt_debug_dump_page
  rw [hpoll, hm, hp]
  simp [hcond]

/-- C7 witness: a transport echoing page 1 against requested page 0. -/
theorem C7_mismatch_witness :
    (mxt_debug_dump_page tMismatch 0x10 0).result = .error .mismatch ∧
    (mxt_debug_dump_page tMismatch 0x10 0).payloadRead = false :=
  C7_mismatch_aborts_without_payload tMismatch 0x10 0 0x10 1 1 rfl rfl rfl
    (Or.inr (by decide))

/-- One assembler iteration on a two-byte page: the guard passes when
`x_ptr ≤ x_size`, the pair is decoded little-endian, stored at
`y + x * y_size`, and the cursor advances with the stripe wrap rule. -/
lemma insert_two_bytes (x_size y_size sy ey : Int) (lo hi : Nat) (c : Cursor)
    (hx : c.x ≤ x_size) :
    mxt_debug_insert_data x_size y_size sy ey 2 [lo, hi] c =
      ⟨[(c.y + c.x * y_size, hi % 256 * 256 + lo % 256)],
       if c.y + 1 > ey then ⟨c.x + 1, sy⟩ else ⟨c.x, c.y + 1⟩, true⟩ := by
  have h1 : ¬(c.x > x_size) := not_lt.mpr hx
  show insertLoop x_size y_size sy ey [lo, hi] 1 0 c = _
  simp only [insertLoop, if_neg h1, List.getD]
  rfl

/-- C8: the Frame Assembler round-trip. For every signed 16-bit value
`v` and every cursor whose `x` passes the source's guard, feeding the
little-endian encoding of `v` through `mxt_debug_insert_data` succeeds,
performs exactly one store at matrix offset `y + x * y_size` whose
`(int16_t)` reinterpretation is `v` again (read back through
`applyWrites` at that offset), and advances the cursor by incrementing
`y` with the wrap to `(stripe_starty, x + 1)` when `y` exceeds
`stripe_endy`. -/
theorem C8_roundtrip (v : Int) (x_size y_size sy ey : Int) (c : Cursor)
    (d : Int → Nat) (hv1 : -32768 ≤ v) (hv2 : v < 32768) (hx : c.x ≤ x_size) :
    (mxt_debug_insert_data x_size y_size sy ey 2 (encodeInt16LE v) c).ok = true ∧
    (mxt_debug_insert_data x_size y_size sy ey 2 (encodeInt16LE v) c).writes =
      [(c.y + c.x * y_size, (v % 65536).toNat)] ∧
    int16OfUint16 (applyWrites d
      (mxt_debug_insert_data x_size y_size sy ey 2 (encodeInt16LE v) c).writes
      (c.y + c.x * y_size)) = v ∧
    (mxt_debug_insert_data x_size y_size sy ey 2 (encodeInt16LE v) c).cursor =
      (if c.y + 1 > ey then ⟨c.x + 1, sy⟩ else ⟨c.x, c.y + 1⟩ : Cursor) := by
  have hm0 : 0 ≤ v % 65536 := Int.emod_nonneg v (by norm_num)
  have hm1 : v % 65536 < 65536 := Int.emod_lt_of_pos v (by norm_num)
  have hmlt : (v % 65536).toNat < 65536 := by omega
  have hdec : (v % 65536).toNat / 256 % 256 * 256 + (v % 65536).toNat % 256 % 256
      = (v % 65536).toNat := by omega
  have hins := insert_two_bytes x_size y_size sy ey
    ((v % 65536).toNat % 256) ((v % 65536).toNat / 256) c hx
  rw [show encodeInt16LE v =
    [(v % 65536).toNat % 256, (v % 65536).toNat / 256] from rfl, hins]
  have hemod : v % 65536 = if 0 ≤ v then v else v + 65536 := by
    rcases le_or_lt 0 v with hv | hv
    · rw [if_pos hv]
      exact Int.emod_eq_of_lt hv (by omega)
    · rw [if_neg (not_le.mpr hv)]
      calc v % 65536 = (v + 65536 * 1) % 65536 :=
            (Int.add_mul_emod_self_left v 65536 1).symm
        _ = v + 65536 := by
            rw [Int.mul_one]
            exact Int.emod_eq_of_lt (by omega) (by omega)
  have hval : int16OfUint16 ((v % 65536).toNat) = v := by
    unfold int16OfUint16
    rcases le_or_lt 0 v with hv | hv
    · rw [if_pos hv] at hemod
      split <;> omega
    · rw [if_neg (not_le.mpr hv)] at hemod
      split <;> omega
  refine ⟨rfl, by rw [hdec], ?_, rfl⟩
  simp only [applyWrites, List.foldl, hdec, if_pos rfl]
  exact hval

/-- C8 witness: round-trip of the concrete value -5 through a 1×3
matrix at cursor (0, 0), stripe `[0, 2]`. -/
theorem C8_roundtrip_witness :
    (mxt_debug_insert_data 1 3 0 2 2 (encodeInt16LE (-5)) ⟨0, 0⟩).ok = true ∧
    (mxt_debug_insert_data 1 3 0 2 2 (encodeInt16LE (-5)) ⟨0, 0⟩).writes =
      [((0 : Int) + (0 : Int) * 3, ((-5 : Int) % 65536).toNat)] ∧
    int16OfUint16 (applyWrites (fun _ => 0)
      (mxt_debug_insert_data 1 3 0 2 2 (encodeInt16LE (-5)) ⟨0, 0⟩).writes
      ((0 : Int) + (0 : Int) * 3)) = -5 ∧
    (mxt_debug_insert_data 1 3 0 2 2 (encodeInt16LE (-5)) ⟨0, 0⟩).cursor =
      (if (0 : Int) + 1 > 2 then ⟨(0 : Int) + 1, 0⟩ else ⟨0, (0 : Int) + 1⟩ : Cursor) :=
  C8_roundtrip (-5) 1 3 0 2 ⟨0, 0⟩ (fun _ => 0) (by decide) (by decide) (by decide)

/-- A fetch against `echoTransport` succeeds in one poll whenever the
requested page equals the transport's echoed page counter `n % per`
(with `per` small enough that the uint8 echo is faithful), and writes
the mode command exactly when the requested page index is 0. -/
lemma fetch_echo (per n mode page : Nat) (pl : List Nat)
    (hpage : page = n % per) (hper0 : 0 < per) (hper : per ≤ 256) :
    mxt_debug_dump_page (echoTransport per n mode pl) mode page =
      ⟨.ok pl, 1, true, if page = 0 then mode % 256 else PAGE_UP⟩ := by
  have h1 : n % per < 256 := Nat.lt_of_lt_of_le (Nat.mod_lt n hper0) hper
  have hpoll : pollLoop (fun _ => Except.ok 0) 500 0 0 = (Except.ok (), 1) := rfl
  have hcond : mode % 256 % 256 = mode % 256 ∧ n % per % 256 = page :=
    ⟨by omega, by rw [Nat.mod_eq_of_lt h1, hpage]⟩
  simp only [mxt_debug_dump_page, echoTransport, hpoll, if_pos hcond]

/-- A page iteration whose fetch succeeds takes the `.ok` branch: the
call counter advances by one, the written command byte is appended, and
no record is appended (the assembler outcome is recorded but never
consulted, as in the source). -/
lemma runPage_ok (cfg : Cfg) (p : Nat) (st : RunState) (pl : List Nat) (c : Nat)
    (hfetch : mxt_debug_dump_page (cfg.env st.calls) cfg.mode p =
      ⟨.ok pl, 1, true, c⟩) :
    ∃ st1, runPage cfg p st = .ok st1 ∧ st1.calls = st.calls + 1 ∧
      st1.cmds = st.cmds ++ [c] ∧ st1.records = st.records := by
  refine ⟨{ st with
      calls := st.calls + 1,
      cmds := st.cmds ++ [c],
      x_ptr := (mxt_debug_insert_data (cfg.x_size : Int) (cfg.y_size : Int)
        st.stripe_starty st.stripe_endy cfg.page_size pl
        ⟨st.x_ptr, st.y_ptr⟩).cursor.x,
      y_ptr := (mxt_debug_insert_data (cfg.x_size : Int) (cfg.y_size : Int)
        st.stripe_starty st.stripe_endy cfg.page_size pl
        ⟨st.x_ptr, st.y_ptr⟩).cursor.y,
      data := applyWrites st.data (mxt_debug_insert_data (cfg.x_size : Int)
        (cfg.y_size : Int) st.stripe_starty st.stripe_endy cfg.page_size pl
        ⟨st.x_ptr, st.y_ptr⟩).writes,
      insertOks := st.insertOks ++ [(mxt_debug_insert_data (cfg.x_size : Int)
        (cfg.y_size : Int) st.stripe_starty st.stripe_endy cfg.page_size pl
        ⟨st.x_ptr, st.y_ptr⟩).ok] }, ?_, rfl, rfl, rfl⟩
  simp only [runPage, hfetch]

/-- Running the page loop against `echoEnv` when every requested index
agrees with the echoed page counter of its call: every fetch succeeds,
one command byte per page is appended (the mode command exactly for
index 0, `PAGE_UP` for every other index), the call counter advances by
the number of pages, and no record is appended. -/
lemma runPages_echo (cfg : Cfg) (per : Nat) (payloads : Nat → List Nat)
    (henv : cfg.env = echoEnv per cfg.mode payloads)
    (hper0 : 0 < per) (hper : per ≤ 256) :
    ∀ (idxs : List Nat) (st : RunState),
      (∀ i, i < idxs.length → idxs.getD i 0 = (st.calls + i) % per) →
      ∃ st2, runPages cfg idxs st = .ok st2 ∧
        st2.cmds = st.cmds ++ (idxs.map fun p =>
          if p = 0 then cfg.mode % 256 else PAGE_UP) ∧
        st2.calls = st.calls + idxs.length ∧
        st2.records = st.records := by
  intro idxs
  induction idxs with
  | nil =>
    intro st _
    exact ⟨st, rfl, by simp, by simp, rfl⟩
  | cons p ps ih =>
    intro st h
    have hp : p = st.calls % per := by
      have := h 0 (by simp)
      simpa using this
    have hfetch : mxt_debug_dump_page (cfg.env st.calls) cfg.mode p =
        ⟨.ok (payloads st.calls), 1, true,
         if p = 0 then cfg.mode % 256 else PAGE_UP⟩ := by
      rw [henv]
      exact fetch_echo per st.calls cfg.mode p (payloads st.calls) hp hper0 hper
    obtain ⟨st1, hrp, hc1, hc2, hc3⟩ :=
      runPage_ok cfg p st (payloads st.calls) _ hfetch
    have hstep : runPages cfg (p :: ps) st = runPages cfg ps st1 := by
      simp only [runPages, hrp]
    obtain ⟨st2, h1, h2, h3, h4⟩ := ih st1 (fun i hi => by
      have hh := h (i + 1) (by simpa using Nat.succ_lt_succ hi)
      rw [hc1]
      simpa [Nat.add_assoc, Nat.add_comm 1 i] using hh)
    refine ⟨st2, by rw [hstep]; exact h1, ?_, ?_, ?_⟩
    · rw [h2, hc2]
      simp [List.append_assoc]
    · rw [h3, hc1]
      simp
      omega
    · rw [h4, hc3]

/-- One stripe run against `echoEnv`, when the call counter entering the
stripe is congruent to the stripe's first global page index: every fetch
of the stripe succeeds, the stripe appends one command byte per page,
and advances the call counter by `pages_per_stripe`. -/
lemma runStripe_echo (cfg : Cfg) (per : Nat) (payloads : Nat → List Nat)
    (henv : cfg.env = echoEnv per cfg.mode payloads)
    (hper0 : 0 < per) (hper : per ≤ 256)
    (hper_eq : per = cfg.num_stripes * cfg.pages_per_stripe)
    (s : Nat) (hs : s < cfg.num_stripes) (st : RunState)
    (hcalls : st.calls % per = cfg.pages_per_stripe * s % per) :
    ∃ st2, runStripe cfg s st = .ok st2 ∧
      st2.cmds = st.cmds ++ ((List.range cfg.pages_per_stripe).map fun p =>
        if cfg.pages_per_stripe * s + p = 0 then cfg.mode % 256 else PAGE_UP) ∧
      st2.calls = st.calls + cfg.pages_per_stripe ∧
      st2.records = st.records := by
  have hbound : ∀ i, i < cfg.pages_per_stripe →
      cfg.pages_per_stripe * s + i < per := by
    intro i hi
    calc cfg.pages_per_stripe * s + i
        < cfg.pages_per_stripe * s + cfg.pages_per_stripe := by omega
      _ = cfg.pages_per_stripe * (s + 1) := by ring
      _ ≤ cfg.pages_per_stripe * cfg.num_stripes :=
          Nat.mul_le_mul_left _ hs
      _ = per := by rw [hper_eq]; ring
  have hkey : ∀ i, i < cfg.pages_per_stripe →
      (st.calls + i) % per = cfg.pages_per_stripe * s + i := by
    intro i hi
    calc (st.calls + i) % per
        = (st.calls % per + i) % per := (Nat.mod_add_mod st.calls per i).symm
      _ = (cfg.pages_per_stripe * s % per + i) % per := by rw [hcalls]
      _ = (cfg.pages_per_stripe * s + i) % per := Nat.mod_add_mod _ per i
      _ = cfg.pages_per_stripe * s + i := Nat.mod_eq_of_lt (hbound i hi)
  obtain ⟨st2, h1, h2, h3, h4⟩ := runPages_echo cfg per payloads henv hper0 hper
    ((List.range cfg.pages_per_stripe).map fun p => cfg.pages_per_stripe * s + p)
    { st with stripe_starty := cfg.stripe_width * (s : Int),
              stripe_endy := cfg.stripe_width * (s : Int) + cfg.stripe_width - 1,
              x_ptr := 0, y_ptr := cfg.stripe_width * (s : Int) }
    (fun i hi => by
      have hlen : i < cfg.pages_per_stripe := by simpa using hi
      have hg : ((List.range cfg.pages_per_stripe).map fun p =>
          cfg.pages_per_stripe * s + p).getD i 0 = cfg.pages_per_stripe * s + i := by
        simp [List.getD_eq_getElem?_getD, List.getElem?_map, hlen,
          List.getElem?_range]
      rw [hg]
      exact (hkey i hlen).symm)
  refine ⟨st2, ?_, ?_, ?_, ?_⟩
  · rw [runStripe]
    exact h1
  · rw [h2]
    simp [List.map_map]
  · rw [h3]
    simp
  · exact h4

/-- The stripe loop over stripes `s, s+1, ..., num_stripes - 1` against
`echoEnv`: every fetch succeeds, commands accumulate stripe by stripe,
and the call counter advances by `cnt * pages_per_stripe`. -/
lemma runStripes_echo (cfg : Cfg) (per : Nat) (payloads : Nat → List Nat)
    (henv : cfg.env = echoEnv per cfg.mode payloads)
    (hper0 : 0 < per) (hper : per ≤ 256)
    (hper_eq : per = cfg.num_stripes * cfg.pages_per_stripe) :
    ∀ (cnt s : Nat), s + cnt = cfg.num_stripes → ∀ st : RunState,
      st.calls % per = cfg.pages_per_stripe * s % per →
      ∃ st2, runStripes cfg (List.range' s cnt) st = .ok st2 ∧
        st2.cmds = st.cmds ++ ((List.range' s cnt).flatMap fun s2 =>
          (List.range cfg.pages_per_stripe).map fun p =>
            if cfg.pages_per_stripe * s2 + p = 0 then cfg.mode % 256 else PAGE_UP) ∧
        st2.calls = st.calls + cnt * cfg.pages_per_stripe ∧
        st2.records = st.records := by
  intro cnt
  induction cnt with
  | zero =>
    intro s _ st _
    exact ⟨st, rfl, by simp, by simp, rfl⟩
  | succ cnt ih =>
    intro s hs st hcalls
    obtain ⟨st1, h1, h2, h3, h4⟩ := runStripe_echo cfg per payloads henv hper0
      hper hper_eq s (by omega) st hcalls
    have hcalls1 : st1.calls % per = cfg.pages_per_stripe * (s + 1) % per := by
      rw [h3]
      calc (st.calls + cfg.pages_per_stripe) % per
          = (st.calls % per + cfg.pages_per_stripe) % per :=
            (Nat.mod_add_mod _ per _).symm
        _ = (cfg.pages_per_stripe * s % per + cfg.pages_per_stripe) % per := by
            rw [hcalls]
        _ = (cfg.pages_per_stripe * s + cfg.pages_per_stripe) % per :=
            Nat.mod_add_mod _ per _
        _ = cfg.pages_per_stripe * (s + 1) % per := by ring_nf
    obtain ⟨st2, g1, g2, g3, g4⟩ := ih (s + 1) (by omega) st1 hcalls1
    have hrs : runStripes cfg (List.range' s (cnt + 1)) st =
        runStripes cfg (List.range' (s + 1) cnt) st1 := by
      rw [List.range'_succ]
      simp only [runStripes, h1]
    refine ⟨st2, by rw [hrs]; exact g1, ?_, ?_, ?_⟩
    · rw [g2, h2, List.range'_succ]
      simp [List.append_assoc]
    · rw [g3, h3]
      ring
    · rw [g4, h4]

/-- The sequence of command bytes one frame writes when every fetch
succeeds: one byte per (stripe, page) pair in order, the mode command
exactly at the frame's first global page index `pages_per_stripe * 0 + 0
= 0`. -/
def framePattern (cfg : Cfg) : List Nat :=
  (List.range cfg.num_stripes).flatMap fun s =>
    (List.range cfg.pages_per_stripe).map fun p =>
      if cfg.pages_per_stripe * s + p = 0 then cfg.mode % 256 else PAGE_UP

/-- The frame loop against `echoEnv` starting from a call counter
divisible by the per-frame page count: every frame completes, writes
`framePattern` to the command register, and appends exactly one log
record. -/
lemma runFrames_echo (cfg : Cfg) (per : Nat) (payloads : Nat → List Nat)
    (henv : cfg.env = echoEnv per cfg.mode payloads)
    (hper0 : 0 < per) (hper : per ≤ 256)
    (hper_eq : per = cfg.num_stripes * cfg.pages_per_stripe) :
    ∀ (fs : List Nat) (st : RunState), st.calls % per = 0 →
      ∃ st2, runFrames cfg fs st = .ok st2 ∧
        st2.cmds = st.cmds ++ (fs.flatMap fun _ => framePattern cfg) ∧
        st2.calls = st.calls + fs.length * per ∧
        st2.records.length = st.records.length + fs.length := by
  intro fs
  induction fs with
  | nil =>
    intro st _
    exact ⟨st, rfl, by simp, by simp, by simp⟩
  | cons f fs ih =>
    intro st hcalls
    have h0 : st.calls % per = cfg.pages_per_stripe * 0 % per := by
      simpa using hcalls
    obtain ⟨st1, h1, h2, h3, h4⟩ := runStripes_echo cfg per payloads henv hper0
      hper hper_eq cfg.num_stripes 0 (by omega) st h0
    have hrf : runFrame cfg f st = .ok { st1 with records := st1.records ++
        [mxt_hawkeye_output (cfg.times f) f cfg.x_size cfg.y_size st1.data] } := by
      simp only [runFrame, List.range_eq_range', h1]
    have hcalls1 : ({ st1 with records := st1.records ++
        [mxt_hawkeye_output (cfg.times f) f cfg.x_size cfg.y_size st1.data] }
          : RunState).calls % per = 0 := by
      show st1.calls % per = 0
      rw [h3, ← hper_eq, Nat.add_mod_right]
      exact hcalls
    obtain ⟨st2, g1, g2, g3, g4⟩ := ih _ hcalls1
    have e1 : ({ st1 with records := st1.records ++
        [mxt_hawkeye_output (cfg.times f) f cfg.x_size cfg.y_size st1.data] }
          : RunState).cmds = st1.cmds := rfl
    have e2 : ({ st1 with records := st1.records ++
        [mxt_hawkeye_output (cfg.times f) f cfg.x_size cfg.y_size st1.data] }
          : RunState).calls = st1.calls := rfl
    have e3 : ({ st1 with records := st1.records ++
        [mxt_hawkeye_output (cfg.times f) f cfg.x_size cfg.y_size st1.data] }
          : RunState).records = st1.records ++
        [mxt_hawkeye_output (cfg.times f) f cfg.x_size cfg.y_size st1.data] := rfl
    rw [e1] at g2
    rw [e2] at g3
    rw [e3] at g4
    have hrun : runFrames cfg (f :: fs) st = runFrames cfg fs
        { st1 with records := st1.records ++
          [mxt_hawkeye_output (cfg.times f) f cfg.x_size cfg.y_size st1.data] } := by
      simp only [runFrames, hrf]
    refine ⟨st2, by rw [hrun]; exact g1, ?_, ?_, ?_⟩
    · rw [g2]
      simp only [List.flatMap_cons]
      rw [h2]
      simp only [framePattern, List.range_eq_range', List.append_assoc]
    · rw [g3, h3, hper_eq]
      simp only [List.length_cons]
      ring
    · rw [g4]
      simp only [List.length_append, List.length_cons, List.length_nil, h4]
      omega

/-- Splitting `List.range (ns * pps)` into `ns` blocks of `pps`: the
global page indices of one frame, stripe-major. -/
lemma flatMap_range_mul {α : Type} (ns pps : Nat) (g : Nat → α) :
    ((List.range ns).flatMap fun s => (List.range pps).map fun p =>
      g (pps * s + p)) = (List.range (ns * pps)).map g := by
  induction ns with
  | zero => simp
  | succ ns ih =>
    rw [List.range_succ, List.flatMap_append, ih, Nat.succ_mul, List.range_add,
      List.map_append]
    simp [List.map_map, Nat.mul_comm]

/-- A whole capture session against `echoEnv` with a recognized chip
geometry: all `frames * ns * pps` fetches succeed, the command trace is
the mode byte at the first page of every frame and `PAGE_UP` everywhere
else, exactly one log record is appended per frame, and the run reports
success. -/
lemma dump_echo (frames family variant x_reported y_reported : Nat)
    (junk : Nat × Nat × Nat) (t37_size : Nat) (payloads : Nat → List Nat)
    (times : Nat → String) (mode : Nat) (d0 : Int → Nat) (ns pps xs : Nat)
    (hgeo : resolveGeometry family variant x_reported = some (ns, pps, xs))
    (hns : 0 < ns) (hpps : 0 < pps) (hper : ns * pps ≤ 256) :
    (mxt_debug_dump frames family variant x_reported y_reported junk t37_size
        (echoEnv (ns * pps) mode payloads) times mode d0).cmds =
      ((List.range frames).flatMap fun _ => (List.range (ns * pps)).map fun p =>
        if p = 0 then mode % 256 else PAGE_UP) ∧
    (mxt_debug_dump frames family variant x_reported y_reported junk t37_size
        (echoEnv (ns * pps) mode payloads) times mode d0).records.length =
      frames ∧
    (mxt_debug_dump frames family variant x_reported y_reported junk t37_size
        (echoEnv (ns * pps) mode payloads) times mode d0).ret = 0 := by
  have hper0 : 0 < ns * pps := Nat.mul_pos hns hpps
  simp only [mxt_debug_dump, hgeo, Option.getD_some]
  obtain ⟨st2, h1, h2, h3, h4⟩ := runFrames_echo
    { env := echoEnv (ns * pps) mode payloads, times := times, mode := mode,
      page_size := (((t37_size : Int) - 2).emod 256).toNat,
      x_size := xs, y_size := y_reported,
      num_stripes := ns, pages_per_stripe := pps,
      stripe_width := (y_reported : Int) / (ns : Int) }
    (ns * pps) payloads rfl hper0 hper rfl
    ((List.range frames).map (· + 1)) ⟨0, 0, 0, 0, d0, 0, [], [], []⟩
    (by simp)
  rw [h1]
  refine ⟨?_, ?_, rfl⟩
  · show st2.cmds = _
    rw [h2]
    have hpat : framePattern
        { env := echoEnv (ns * pps) mode payloads, times := times, mode := mode,
          page_size := (((t37_size : Int) - 2).emod 256).toNat,
          x_size := xs, y_size := y_reported,
          num_stripes := ns, pages_per_stripe := pps,
          stripe_width := (y_reported : Int) / (ns : Int) } =
        (List.range (ns * pps)).map fun p =>
          if p = 0 then mode % 256 else PAGE_UP := by
      unfold framePattern
      exact flatMap_range_mul ns pps fun q => if q = 0 then mode % 256 else PAGE_UP
    rw [hpat]
    simp [List.flatMap_map]
  · show st2.records.length = frames
    rw [h4]
    simp

/-- C5 (amended): across a session of any number of frames with a
recognized geometry and a protocol-following chip, the capture mode
value is written to the command register exactly at the pages whose
per-frame global index `pages_per_stripe * stripe + page` is 0 — that
is, for the first page of every frame, because `mxt_dd.page` is
recomputed from `(stripe, page)` afresh in each frame — and every other
page receives the page-advance command. It is not written only once per
session. -/
theorem C5_mode_written_every_frame
    (frames family variant x_reported y_reported : Nat)
    (junk : Nat × Nat × Nat) (t37_size : Nat) (payloads : Nat → List Nat)
    (times : Nat → String) (mode : Nat) (d0 : Int → Nat) (ns pps xs : Nat)
    (hgeo : resolveGeometry family variant x_reported = some (ns, pps, xs))
    (hns : 0 < ns) (hpps : 0 < pps) (hper : ns * pps ≤ 256) :
    (mxt_debug_dump frames family variant x_reported y_reported junk t37_size
        (echoEnv (ns * pps) mode payloads) times mode d0).cmds =
      ((List.range frames).flatMap fun _ => (List.range (ns * pps)).map fun p =>
        if p = 0 then mode % 256 else PAGE_UP) :=
  (dump_echo frames family variant x_reported y_reported junk t37_size payloads
    times mode d0 ns pps xs hgeo hns hpps hper).1

/-- C5 witness: the amended command schedule at the concrete 2-frame
session of the counterexample (family 0xA1 variant 0x03). -/
theorem C5_mode_written_every_frame_witness :
    (mxt_debug_dump 2 0xA1 0x03 1 1 (0, 0, 0) 4
        (echoEnv (1 * 9) 0x10 fun _ => [0, 0])
        (fun _ => "00:00:00") 0x10 fun _ => 0).cmds =
      ((List.range 2).flatMap fun _ => (List.range (1 * 9)).map fun p =>
        if p = 0 then 0x10 % 256 else PAGE_UP) :=
  C5_mode_written_every_frame 2 0xA1 0x03 1 1 (0, 0, 0) 4 (fun _ => [0, 0])
    (fun _ => "00:00:00") 0x10 (fun _ => 0) 1 9 1 rfl (by decide) (by decide)
    (by decide)

/-- Concatenation distributes over `String.join`. -/
lemma join_append (a b : List String) :
    String.join (a ++ b) = String.join a ++ String.join b := by
  apply String.ext
  simp

/-- Joining a flatMap equals joining the blockwise joins. -/
lemma join_flatMap {α : Type} (l : List α) (f : α → List String) :
    String.join (l.flatMap f) =
      String.join (l.map fun a => String.join (f a)) := by
  induction l with
  | nil => rfl
  | cons a l ih =>
    rw [List.flatMap_cons, join_append, ih, List.map_cons]
    apply String.ext
    simp

/-- The column-major cell enumeration has exactly one entry per matrix
cell. -/
lemma length_columnMajorCells (x_size y_size : Nat) :
    (columnMajorCells x_size y_size).length = x_size * y_size := by
  unfold columnMajorCells
  induction x_size with
  | zero => simp
  | succ x ih =>
    rw [List.range_succ, List.flatMap_append, List.length_append, ih]
    simp [Nat.succ_mul]

/-- C9: the Frame Serializer's record format. The source's nested
`fprintf` loops produce exactly the record the spec words: timestamp,
frame number, then every one of the `x_size * y_size` matrix cells in
column-major (x outer, y inner) order as decimal signed 16-bit integers,
every value (the last included) terminated by a comma, then a newline
(the timestamp string itself is supplied by the wall-clock collaborator).
And the capture loop appends exactly one such record per completed
frame: in a session against a protocol-following chip, the number of
records equals the number of frames. -/
theorem C9_record_format :
    (∀ (timestr : String) (frame x_size y_size : Nat) (data : Int → Nat),
      mxt_hawkeye_output timestr frame x_size y_size data =
        specLogRecord timestr frame x_size y_size data ∧
      (columnMajorCells x_size y_size).length = x_size * y_size) ∧
    (∀ (frames family variant x_reported y_reported : Nat)
      (junk : Nat × Nat × Nat) (t37_size : Nat) (payloads : Nat → List Nat)
      (times : Nat → String) (mode : Nat) (d0 : Int → Nat) (ns pps xs : Nat),
      resolveGeometry family variant x_reported = some (ns, pps, xs) →
      0 < ns → 0 < pps → ns * pps ≤ 256 →
      (mxt_debug_dump frames family variant x_reported y_reported junk t37_size
        (echoEnv (ns * pps) mode payloads) times mode d0).records.length =
        frames) := by
  constructor
  · intro timestr frame x_size y_size data
    refine ⟨?_, length_columnMajorCells x_size y_size⟩
    unfold mxt_hawkeye_output specLogRecord columnMajorCells
    have hjoin : String.join
        (((List.range x_size).flatMap fun x =>
            (List.range y_size).map fun y => (x, y)).map fun p =>
          toString (int16OfUint16
            (data ((p.2 : Int) + (p.1 : Int) * (y_size : Int)))) ++ ",") =
        String.join ((List.range x_size).map fun (x : Nat) =>
          String.join ((List.range y_size).map fun (y : Nat) =>
            toString (int16OfUint16
              (data ((y : Int) + (x : Int) * (y_size : Int)))) ++ ",")) := by
      rw [List.map_flatMap, join_flatMap]
      simp only [List.map_map]
      rfl
    rw [hjoin]
  · intro frames family variant x_reported y_reported junk t37_size payloads
      times mode d0 ns pps xs hgeo hns hpps hper
    exact (dump_echo frames family variant x_reported y_reported junk t37_size
      payloads times mode d0 ns pps xs hgeo hns hpps hper).2.1

/-- C9 witness: the record-count part at the concrete 2-frame session. -/
theorem C9_record_format_witness :
    (mxt_debug_dump 2 0xA1 0x03 1 1 (0, 0, 0) 4
        (echoEnv (1 * 9) 0x10 fun _ => [0, 0])
        (fun _ => "00:00:00") 0x10 fun _ => 0).records.length = 2 :=
  C9_record_format.2 2 0xA1 0x03 1 1 (0, 0, 0) 4 (fun _ => [0, 0])
    (fun _ => "00:00:00") 0x10 (fun _ => 0) 1 9 1 rfl (by decide) (by decide)
    (by decide)
